import Mathlib

/- Verification development for the windowed batching and compressed sharded-write
engine in src/PubSubToGCS_Compression.py: a streaming pipeline that groups Pub/Sub
messages into fixed windows, assigns random shard keys, aggregates each
(window, shard) batch and writes it to Google Cloud Storage under a date-partitioned
path, optionally compressed.

The Python source is shallowly embedded below. Pure program logic (window
assignment, shard keying, grouping, path and MIME construction, batch serialization,
dispatch) is translated directly from the source. Library behaviour that the
program relies on is modelled explicitly: the proleptic Gregorian calendar used by
datetime/strftime (an iterative year/month decomposition, validated on concrete
dates and proved to invert), decimal formatting of str() and the zero-padded
strftime fields, Beam's FixedWindows assignment and size check, random.randint, and
the GCS object store as a path-indexed map with overwrite semantics. The gzip, zlib
and bz2 compressors are abstract functions of the serialized batch bytes. -/

-- ===== calendar model (datetime library, proleptic Gregorian) =====

def isLeap (y : Nat) : Bool := (y % 4 == 0 && y % 100 != 0) || y % 400 == 0

def daysInYear (y : Nat) : Nat := 365 + (if isLeap y then 1 else 0)

def monthLen (y m : Nat) : Nat :=
  if m = 2 then (if isLeap y then 29 else 28)
  else if m = 4 || m = 6 || m = 9 || m = 11 then 30 else 31

def daysToYearFuel : Nat → Nat → Nat → Nat × Nat
  | 0, y, d => (y, d)
  | fuel + 1, y, d =>
    if d < daysInYear y then (y, d) else daysToYearFuel fuel (y + 1) (d - daysInYear y)

def daysToYear (y d : Nat) : Nat × Nat := daysToYearFuel (d + 1) y d

def daysToMonthFuel : Nat → Nat → Nat → Nat → Nat × Nat
  | 0, _, m, d => (m, d)
  | fuel + 1, y, m, d =>
    if d < monthLen y m then (m, d) else daysToMonthFuel fuel y (m + 1) (d - monthLen y m)

def daysToMonth (y m d : Nat) : Nat × Nat := daysToMonthFuel (d + 1) y m d

def spanDays : Nat → Nat → Nat
  | _, 0 => 0
  | y, k + 1 => daysInYear y + spanDays (y + 1) k

def monthSpan (y : Nat) : Nat → Nat
  | 0 => 0
  | m + 1 => if m = 0 then 0 else monthSpan y m + monthLen y m

def civilFromDays (z : Nat) : Nat × Nat × Nat :=
  let yr := daysToYear 1970 z
  let mo := daysToMonth yr.1 1 yr.2
  (yr.1, mo.1, mo.2 + 1)

def daysFromCivil (y m d : Nat) : Nat :=
  spanDays 1970 (y - 1970) + monthSpan y m + (d - 1)

-- ===== decimal digit formatting (str and strftime padding) =====

def digitChar (d : Nat) : Char := Char.ofNat (48 + d)

def natStrFuel : Nat → Nat → List Char
  | 0, _ => []
  | fuel + 1, n =>
    if n < 10 then [digitChar n] else natStrFuel fuel (n / 10) ++ [digitChar (n % 10)]

/-- Decimal numeral of a natural number, modelling Python's str() on a nonnegative int. -/
def natStr (n : Nat) : List Char := natStrFuel (n + 1) n

/-- Zero-padding numeral formatter, modelling strftime's zero-padded numeric fields. -/
def padNat (w n : Nat) : List Char := List.replicate (w - (natStr n).length) '0' ++ natStr n

-- ===== UTC formatting (datetime.strftime on Timestamp.to_utc_datetime) =====

def utcYMD (t : Nat) : Nat × Nat × Nat := civilFromDays (t / 86400)

def utcHour (t : Nat) : Nat := t % 86400 / 3600

def utcMin (t : Nat) : Nat := t % 86400 % 3600 / 60

/-- Models strftime of the "%Y/%m/%d" date directory for epoch second t. -/
def strftimeDateDir (t : Nat) : List Char :=
  padNat 4 (utcYMD t).1 ++ ['/'] ++ padNat 2 (utcYMD t).2.1 ++ ['/'] ++ padNat 2 (utcYMD t).2.2

/-- Models strftime of the "%H:%M" time field for epoch second t. -/
def strftimeHM (t : Nat) : List Char := padNat 2 (utcHour t) ++ [':'] ++ padNat 2 (utcMin t)

-- ===== embedding of src/PubSubToGCS_Compression.py =====

/-- Raw transport payloads are modelled by their UTF-8 decoded text (UTF-8 encoding and
decoding form a bijection between valid byte payloads and strings, which the pipeline
relies on in DecodeMessage). -/
abbrev Bytes := String

/-- Models the gzip, zlib and bz2 libraries imported at the top of the source file as
functions from the serialized batch bytes to compressed bytes. zlib.compress and
bz2.compress are deterministic single-shot functions of their input; a CompressionLibs
value fixes one observation of the gzip library, which is valid only for a single
write, because gzip.GzipFile stamps the current wall-clock second into the stream's
MTIME header field — that time dependence is modelled explicitly by gzipMemberBytes
below. -/
structure CompressionLibs where
  gzipCompress : String → String
  zlibCompress : String → String
  bz2Compress : String → String

/-- Beam IntervalWindow: the half-open interval of the fixed window an element is in.
`window.start` and `window.end` in the source; `end` is a Lean keyword, named `stop`. -/
structure IntervalWindow where
  start : Int
  stop : Int
deriving DecidableEq, Repr

/-- Beam's FixedWindows(size) assignment (offset 0), used by
"Window into fixed intervals" >> WindowInto(FixedWindows(self.window_size)):
the element timestamp t is assigned the window [t - t mod size, t - t mod size + size). -/
def FixedWindows.assign (size : Int) (t : Int) : IntervalWindow :=
  ⟨t - t % size, t - t % size + size⟩

/-- DecodeMessage.process: yields element.decode("utf-8"); with payloads modelled as
their decoded text this is the identity on the payload. -/
def DecodeMessage.process (element : Bytes) : String := element

/-- Models random.randint(0, hi) given one value v drawn from the random source:
raises (none) when hi < 0 (empty range), otherwise returns a value in [0, hi]. -/
def randint0 (hi : Int) (v : Nat) : Option Nat :=
  if hi < 0 then none else some (v % (hi.toNat + 1))

/-- The "Add key" lambda of GroupMessagesByFixedWindows.expand:
`lambda _: random.randint(0, self.num_shards - 1)` — it ignores the element. -/
def GroupMessagesByFixedWindows.keyFn (num_shards : Int) (v : Nat) (element : String) :
    Option Nat :=
  randint0 (num_shards - 1) v

/-- Runs the "Add key" step over the windowed, decoded elements, drawing the i-th random
value from the random source. Fails (as the source does per record) when the shard range
is empty. -/
def assignShardKeys (num_shards : Int) (rand : Nat → Nat) :
    Nat → List (IntervalWindow × String) → Except String (List ((IntervalWindow × Nat) × String))
  | _, [] => .ok []
  | i, (w, body) :: rest =>
    match GroupMessagesByFixedWindows.keyFn num_shards (rand i) body with
    | none => .error "empty range for randrange()"
    | some k =>
      match assignShardKeys num_shards rand (i + 1) rest with
      | .error e => .error e
      | .ok tail => .ok (((w, k), body) :: tail)

/-- One insertion step of GroupByKey: values grouped per key in arrival order.
Beam groups by key within each window; the composite (window, shard) key models this. -/
def addToGroup (k : IntervalWindow × Nat) (v : String) :
    List ((IntervalWindow × Nat) × List String) → List ((IntervalWindow × Nat) × List String)
  | [] => [(k, [v])]
  | (k2, vs) :: rest =>
    if k2 = k then (k2, vs ++ [v]) :: rest else (k2, vs) :: addToGroup k v rest

/-- The "Group by key" >> GroupByKey() stage. -/
def groupByKey (pairs : List ((IntervalWindow × Nat) × String)) :
    List ((IntervalWindow × Nat) × List String) :=
  pairs.foldl (fun acc kv => addToGroup kv.1 kv.2 acc) []

/-- GroupMessagesByFixedWindows.expand: window into fixed intervals, decode, add a random
shard key, group by key. Source order: WindowInto, then ParDo(DecodeMessage), then
WithKeys, then GroupByKey. -/
def GroupMessagesByFixedWindows.expand (window_size num_shards : Int) (rand : Nat → Nat)
    (msgs : List (Bytes × Int)) :
    Except String (List ((IntervalWindow × Nat) × List String)) :=
  let windowed := msgs.map (fun m => (FixedWindows.assign window_size m.2, m.1))
  let decoded := windowed.map (fun wm => (wm.1, DecodeMessage.process wm.2))
  match assignShardKeys num_shards rand 0 decoded with
  | .error e => .error e
  | .ok keyed => .ok (groupByKey keyed)

/-- WriteToGCS DoFn state: constructor arguments. -/
structure WriteToGCS where
  output_gcs_directory : String
  compression_method : String

/-- Decimal string of the shard id, modelling str(shard_id). -/
def natString (n : Nat) : String := String.mk (natStr n)

def dateDirStr (t : Nat) : String := String.mk (strftimeDateDir t)

def hmStr (t : Nat) : String := String.mk (strftimeHM t)

/-- The output path built by WriteToGCS.process (source lines 63-89):
f-string with the date directory from the window start, window start/end as %H:%M,
the shard id and ".json", then the compression-specific extension appended. -/
def WriteToGCS.filename (self : WriteToGCS) (window : IntervalWindow) (shard_id : Nat) :
    String :=
  let suffix := "json"
  let base := self.output_gcs_directory ++ "/" ++ dateDirStr window.start.toNat ++ "/logs-"
    ++ hmStr window.start.toNat ++ "-" ++ hmStr window.stop.toNat ++ "-"
    ++ natString shard_id ++ "." ++ suffix
  if self.compression_method = "gzip" then base ++ ".gz"
  else if self.compression_method = "deflate" then base ++ ".zlib"
  else if self.compression_method = "bz2" then base ++ ".bz2"
  else base

/-- The MIME type chosen by WriteToGCS.process. The initial
"application/octet-stream" default is overwritten on every branch (the else branch of
the chain sets "application/json"), so it never reaches the write call. -/
def mimeFor (method : String) : String :=
  if method = "gzip" then "application/gzip"
  else if method = "deflate" then "application/zlib"
  else if method = "bz2" then "application/x-bzip2"
  else "application/json"

/-- Newline-delimited serialization of a batch: each record is written as body + "\n",
in batch order (the for-loops / joins of source lines 93-112). -/
def serializeBatch : List String → String
  | [] => ""
  | b :: rest => b ++ "\n" ++ serializeBatch rest

/-- The bytes written by WriteToGCS.process: gzip streams each record through one
GzipFile member (net effect: gzip of the concatenation); deflate and bz2 join all
records first and compress the single buffer; the else branch writes the records
verbatim. -/
def WriteToGCS.encodeBatch (self : WriteToGCS) (libs : CompressionLibs)
    (batch : List String) : String :=
  if self.compression_method = "gzip" then libs.gzipCompress (serializeBatch batch)
  else if self.compression_method = "deflate" then libs.zlibCompress (serializeBatch batch)
  else if self.compression_method = "bz2" then libs.bz2Compress (serializeBatch batch)
  else serializeBatch batch

/-- The object handed to GcsIO().open(...).write: path, MIME type and contents. -/
structure OutputObject where
  path : String
  mime_type : String
  contents : String
deriving DecidableEq, Repr

/-- WriteToGCS.process: builds the filename and MIME type and writes the encoded batch
as one object. key_value = (shard_id, batch) as produced by GroupByKey. -/
def WriteToGCS.process (self : WriteToGCS) (libs : CompressionLibs)
    (key_value : Nat × List String) (window : IntervalWindow) : OutputObject :=
  ⟨self.filename window key_value.1, mimeFor self.compression_method,
    self.encodeBatch libs key_value.2⟩

/-- The GCS bucket: a map from path to (contents, mime type). -/
def GcsStore := String → Option (String × String)

/-- GcsIO().open(filename, "wb", mime_type).write(data): object creation with
overwrite semantics. -/
def gcsCreateObject (store : GcsStore) (o : OutputObject) : GcsStore :=
  fun p => if p = o.path then some (o.contents, o.mime_type) else store p

/-- The construction-time check performed by Beam's FixedWindows(size): raises
ValueError for a non-positive size. This runs while the pipeline is being built in
run(), before any record is processed. -/
def FixedWindowsCheck (size : Int) : Except String Unit :=
  if size ≤ 0 then .error "The size parameter must be strictly positive." else .ok ()

/-- Startup of run() (source lines 115-135): the pipeline is constructed; the source
itself validates nothing — the only construction-time failure is the FixedWindows
size check. compression_type and num_shards are stored unchecked. -/
def run (compression_type : String) (window_interval_sec : Int) (num_shards : Int) :
    Except String Unit :=
  match FixedWindowsCheck window_interval_sec with
  | .error e => .error e
  | .ok _ => .ok ()

/-- The full data path of one (bounded) batch of input messages through the streaming
pipeline: expand (window/decode/key/group), then WriteToGCS per group. -/
def runPipeline (output_gcs_directory compression_type : String) (libs : CompressionLibs)
    (window_interval_sec num_shards : Int) (rand : Nat → Nat)
    (msgs : List (Bytes × Int)) : Except String (List OutputObject) :=
  match GroupMessagesByFixedWindows.expand window_interval_sec num_shards rand msgs with
  | .error e => .error e
  | .ok groups =>
    .ok (groups.map (fun g =>
      WriteToGCS.process ⟨output_gcs_directory, compression_type⟩ libs (g.1.2, g.2) g.1.1))

/-- Identity "compression": used to instantiate the abstract libraries in concrete runs. -/
def idLibs : CompressionLibs := ⟨id, id, id⟩

/-- Models the byte stream written through gzip.GzipFile(fileobj, "wb") at source line
94: an RFC 1952 gzip member whose 10-byte header is the magic bytes 31 and 139, the
deflate method byte 8, flags 0, then the write time as a 4-byte little-endian MTIME
field (CPython fills it from time.time() when no mtime argument is given), XFL 0 and
the OS byte 255; the deflate-compressed payload and the trailer that follow are
abstracted as a function of the payload. Bytes are represented as characters with code
points 0-255. -/
def gzipMemberBytes (deflateBody : String → List Char) (mtime : Nat) (payload : String) :
    String :=
  String.mk ([Char.ofNat 31, Char.ofNat 139, Char.ofNat 8, Char.ofNat 0,
    Char.ofNat (mtime % 256), Char.ofNat (mtime / 256 % 256),
    Char.ofNat (mtime / 65536 % 256), Char.ofNat (mtime / 16777216 % 256),
    Char.ofNat 0, Char.ofNat 255] ++ deflateBody payload)

/-- The gzip compressor as the program observes it during a write performed at
wall-clock second `now`: passing this to WriteToGCS.process models the gzip branch's
write at that time. -/
def gzipCompressAt (deflateBody : String → List Char) (now : Nat) : String → String :=
  gzipMemberBytes deflateBody now

/-- Splits a string on newline characters, dropping a trailing empty segment
(Python str.splitlines semantics for "\n"-separated text). -/
def splitLinesAux : List Char → List Char → List String
  | [], acc => if acc.isEmpty then [] else [String.mk acc.reverse]
  | c :: rest, acc =>
    if c = '\n' then String.mk acc.reverse :: splitLinesAux rest []
    else splitLinesAux rest (c :: acc)

def splitLines (s : String) : List String := splitLinesAux s.data []

-- ===== pipeline stage order (section 2 of the spec) =====

inductive Stage where
  | windowInto
  | decodeMsg
  | addKey
  | groupByK
  | encodeBatch
  | writeObject
deriving DecidableEq, Repr

/-- The stage order of the implementation: WindowInto, ParDo(DecodeMessage), WithKeys,
GroupByKey (source lines 34-46), then ParDo(WriteToGCS) which encodes and writes. -/
def pipelineStages : List Stage :=
  [.windowInto, .decodeMsg, .addKey, .groupByK, .encodeBatch, .writeObject]

/-- Modelled from the spec: the reference order Decoder, Window Assigner, Shard Key
Generator, Window Aggregator, Batch Encoder, Object Writer. -/
def specStages : List Stage :=
  [.decodeMsg, .windowInto, .addKey, .groupByK, .encodeBatch, .writeObject]

/-- An element record as it moves through the first two stages. -/
structure Elem where
  payload : Bytes
  ts : Int
  body : Option String
  window : Option IntervalWindow
deriving DecidableEq

/-- The windowing stage on one element. -/
def windowStage (size : Int) (e : Elem) : Elem :=
  { e with window := some (FixedWindows.assign size e.ts) }

/-- The decoding stage on one element. -/
def decodeStage (e : Elem) : Elem :=
  { e with body := some (DecodeMessage.process e.payload) }

/-- The extension characters appended after ".json" for each compression method
(derived below from WriteToGCS.filename). -/
def extChars (method : String) : List Char :=
  if method = "gzip" then ['.', 'g', 'z']
  else if method = "deflate" then ['.', 'z', 'l', 'i', 'b']
  else if method = "bz2" then ['.', 'b', 'z', '2']
  else []


-- ===== validation of the calendar model on concrete dates =====

theorem civilFromDays_epoch : civilFromDays 0 = (1970, 1, 1) := by decide

theorem civilFromDays_y2024 : civilFromDays 19723 = (2024, 1, 1) := by decide

theorem civilFromDays_leap2000 : civilFromDays 11016 = (2000, 2, 29) := by decide

theorem civilFromDays_noleap2100 : civilFromDays 47540 = (2100, 2, 28) := by decide

theorem civilFromDays_mar2100 : civilFromDays 47541 = (2100, 3, 1) := by decide

-- ===== calendar lemmas =====

theorem daysInYear_pos (y : Nat) : 365 ≤ daysInYear y := by
  unfold daysInYear; omega

theorem monthLen_pos (y m : Nat) : 28 ≤ monthLen y m ∧ monthLen y m ≤ 31 := by
  unfold monthLen
  split
  · split <;> omega
  · split <;> omega

theorem spanDays_succ (y k : Nat) : spanDays y (k + 1) = daysInYear y + spanDays (y + 1) k := rfl

theorem monthSpan_succ (y m : Nat) :
    monthSpan y (m + 1) = if m = 0 then 0 else monthSpan y m + monthLen y m := rfl

theorem daysToYearFuel_invariant (fuel : Nat) : ∀ y d, d < fuel →
    ∃ k, daysToYearFuel fuel y d = (y + k, d - spanDays y k) ∧
      spanDays y k ≤ d ∧ d - spanDays y k < daysInYear (y + k) := by
  induction fuel with
  | zero => intro y d h; omega
  | succ fuel ih =>
    intro y d h
    rw [daysToYearFuel]
    split
    next hlt =>
      exact ⟨0, by simp [spanDays], by simp [spanDays], by simpa [spanDays] using hlt⟩
    next hge =>
      have h365 := daysInYear_pos y
      obtain ⟨k, hk, hle, hlt⟩ := ih (y + 1) (d - daysInYear y) (by omega)
      have hsp := spanDays_succ y k
      have harr : y + 1 + k = y + (k + 1) := by omega
      rw [harr] at hk hlt
      refine ⟨k + 1, ?_, by omega, by omega⟩
      rw [hk, Prod.mk.injEq]
      exact ⟨rfl, by omega⟩

theorem daysToYear_invariant (y d : Nat) :
    ∃ k, daysToYear y d = (y + k, d - spanDays y k) ∧
      spanDays y k ≤ d ∧ d - spanDays y k < daysInYear (y + k) :=
  daysToYearFuel_invariant (d + 1) y d (by omega)

theorem spanDays_ge (y k : Nat) : 365 * k ≤ spanDays y k := by
  induction k generalizing y with
  | zero => simp [spanDays]
  | succ k ih =>
    have h1 := daysInYear_pos y
    have h2 := ih (y + 1)
    have hsp := spanDays_succ y k
    omega

theorem daysToMonthFuel_invariant (fuel : Nat) : ∀ y m d, d < fuel → 1 ≤ m →
    ∃ j, daysToMonthFuel fuel y m d = (m + j, d + monthSpan y m - monthSpan y (m + j)) ∧
      monthSpan y (m + j) ≤ d + monthSpan y m ∧
      d + monthSpan y m - monthSpan y (m + j) < monthLen y (m + j) := by
  induction fuel with
  | zero => intro y m d h; omega
  | succ fuel ih =>
    intro y m d h hm
    rw [daysToMonthFuel]
    split
    next hlt =>
      exact ⟨0, by simp, by simp, by simpa using hlt⟩
    next hge =>
      have h28 := monthLen_pos y m
      obtain ⟨j, hj, hle, hlt⟩ := ih y (m + 1) (d - monthLen y m) (by omega) (by omega)
      have hsp : monthSpan y (m + 1) = monthSpan y m + monthLen y m := by
        rw [monthSpan_succ, if_neg (by omega)]
      have harr : m + 1 + j = m + (j + 1) := by omega
      rw [harr] at hj hle hlt
      refine ⟨j + 1, ?_, by omega, by omega⟩
      rw [hj, Prod.mk.injEq]
      exact ⟨rfl, by omega⟩

theorem daysToMonth_invariant (y m d : Nat) (hm : 1 ≤ m) :
    ∃ j, daysToMonth y m d = (m + j, d + monthSpan y m - monthSpan y (m + j)) ∧
      monthSpan y (m + j) ≤ d + monthSpan y m ∧
      d + monthSpan y m - monthSpan y (m + j) < monthLen y (m + j) :=
  daysToMonthFuel_invariant (d + 1) y m d (by omega) hm

theorem monthSpan_thirteen (y : Nat) : monthSpan y 13 = daysInYear y := by
  rcases h : isLeap y <;>
    simp [monthSpan, monthLen, daysInYear, h]

theorem monthSpan_le_succ (y n : Nat) : monthSpan y n ≤ monthSpan y (n + 1) := by
  rcases Nat.eq_zero_or_pos n with h0 | h0
  · subst h0; simp [monthSpan]
  · rw [monthSpan_succ, if_neg (by omega)]; omega

theorem monthSpan_mono (y : Nat) {a b : Nat} (h : a ≤ b) : monthSpan y a ≤ monthSpan y b := by
  induction h with
  | refl => exact Nat.le_refl _
  | step h2 ih => exact Nat.le_trans ih (monthSpan_le_succ y _)

theorem civil_roundtrip (z : Nat) :
    daysFromCivil (civilFromDays z).1 (civilFromDays z).2.1 (civilFromDays z).2.2 = z := by
  obtain ⟨k, hk, hkle, hklt⟩ := daysToYear_invariant 1970 z
  obtain ⟨j, hj, hjle, hjlt⟩ := daysToMonth_invariant (1970 + k) 1 (z - spanDays 1970 k) (by omega)
  unfold civilFromDays daysFromCivil
  rw [hk]
  simp only [hj]
  have h1 : monthSpan (1970 + k) 1 = 0 := rfl
  rw [h1] at hjle ⊢
  have harith : 1970 + k - 1970 = k := by omega
  rw [harith]
  omega

theorem month_bounds (y d : Nat) (hd : d < daysInYear y) :
    1 ≤ (daysToMonth y 1 d).1 ∧ (daysToMonth y 1 d).1 ≤ 12 := by
  obtain ⟨j, hj, hle, hlt⟩ := daysToMonth_invariant y 1 d (by omega)
  rw [hj]
  refine ⟨by omega, ?_⟩
  by_contra hgt
  have h13 : monthSpan y 13 ≤ monthSpan y (1 + j) := monthSpan_mono y (by omega)
  rw [monthSpan_thirteen] at h13
  have h1 : monthSpan y 1 = 0 := rfl
  omega

theorem day_bounds (y m d : Nat) (hm : 1 ≤ m) :
    (daysToMonth y m d).2 < 32 := by
  obtain ⟨j, hj, hle, hlt⟩ := daysToMonth_invariant y m d hm
  have := (monthLen_pos y (m + j)).2
  rw [hj]
  omega

theorem year_bounds (z : Nat) (hz : z < 2930950) :
    1970 ≤ (daysToYear 1970 z).1 ∧ (daysToYear 1970 z).1 < 10000 := by
  obtain ⟨k, hk, hle, hlt⟩ := daysToYear_invariant 1970 z
  have := spanDays_ge 1970 k
  rw [hk]
  exact ⟨by omega, by omega⟩

theorem doy_bounds (z : Nat) :
    (daysToYear 1970 z).2 < daysInYear (daysToYear 1970 z).1 := by
  obtain ⟨k, hk, hle, hlt⟩ := daysToYear_invariant 1970 z
  rw [hk]
  exact hlt

theorem civilFromDays_inj (z1 z2 : Nat) (h : civilFromDays z1 = civilFromDays z2) : z1 = z2 := by
  have h1 := civil_roundtrip z1
  have h2 := civil_roundtrip z2
  rw [h] at h1
  omega

theorem natStrFuel_irrel (f1 : Nat) : ∀ f2 n, n < f1 → n < f2 →
    natStrFuel f1 n = natStrFuel f2 n := by
  induction f1 with
  | zero => intro f2 n h; omega
  | succ f1 ih =>
    intro f2 n h1 h2
    obtain ⟨g, rfl⟩ : ∃ g, f2 = g + 1 := ⟨f2 - 1, by omega⟩
    rw [natStrFuel, natStrFuel]
    split
    · rfl
    next hge =>
      rw [ih g (n / 10) (by omega) (by omega)]

theorem natStr_unfold (n : Nat) :
    natStr n = if n < 10 then [digitChar n] else natStr (n / 10) ++ [digitChar (n % 10)] := by
  unfold natStr
  rw [natStrFuel]
  split
  · rfl
  next hge =>
    rw [natStrFuel_irrel n (n / 10 + 1) (n / 10) (by omega) (by omega)]

theorem digitChar_inj : ∀ a, a < 10 → ∀ b, b < 10 → digitChar a = digitChar b → a = b := by
  decide

theorem natStr_ne_nil (n : Nat) : natStr n ≠ [] := by
  rw [natStr_unfold]
  split <;> simp

theorem natStr_inj (n : Nat) : ∀ m, natStr n = natStr m → n = m := by
  induction n using Nat.strong_induction_on with
  | _ n ih =>
    intro m h
    rw [natStr_unfold n, natStr_unfold m] at h
    by_cases hn : n < 10 <;> by_cases hm : m < 10
    · rw [if_pos hn, if_pos hm] at h
      simp only [List.cons.injEq, and_true] at h
      exact digitChar_inj n hn m hm h
    · exfalso
      rw [if_pos hn, if_neg hm] at h
      have hlen := congrArg List.length h
      simp only [List.length_cons, List.length_nil, List.length_append] at hlen
      have h0 : (natStr (m / 10)).length = 0 := by omega
      exact natStr_ne_nil (m / 10) (List.length_eq_zero.mp h0)
    · exfalso
      rw [if_neg hn, if_pos hm] at h
      have hlen := congrArg List.length h
      simp only [List.length_cons, List.length_nil, List.length_append] at hlen
      have h0 : (natStr (n / 10)).length = 0 := by omega
      exact natStr_ne_nil (n / 10) (List.length_eq_zero.mp h0)
    · rw [if_neg hn, if_neg hm] at h
      have hrev := congrArg List.reverse h
      simp only [List.reverse_append, List.reverse_cons, List.reverse_nil, List.nil_append,
        List.singleton_append, List.cons.injEq] at hrev
      obtain ⟨hd, ht⟩ := hrev
      have hq : n / 10 = m / 10 :=
        ih (n / 10) (by omega) (m / 10) (List.reverse_injective ht)
      have hr : n % 10 = m % 10 := digitChar_inj _ (by omega) _ (by omega) hd
      omega

theorem pad2_eq (n : Nat) (h : n < 100) :
    padNat 2 n = [digitChar (n / 10), digitChar (n % 10)] := by
  by_cases h10 : n < 10
  · have h1 : natStr n = [digitChar n] := by rw [natStr_unfold, if_pos h10]
    have h2 : n / 10 = 0 := by omega
    have h3 : n % 10 = n := by omega
    rw [padNat, h1, h2, h3]
    rfl
  · have h1 : natStr n = [digitChar (n / 10), digitChar (n % 10)] := by
      rw [natStr_unfold, if_neg h10, natStr_unfold, if_pos (by omega)]
      rfl
    rw [padNat, h1]
    rfl

theorem pad4_eq (n : Nat) (h1 : 1000 ≤ n) (h2 : n < 10000) :
    padNat 4 n = [digitChar (n / 1000), digitChar (n / 100 % 10),
      digitChar (n / 10 % 10), digitChar (n % 10)] := by
  have e2 : (n / 10) / 10 = n / 100 := by omega
  have e3 : (n / 100) / 10 = n / 1000 := by omega
  have e2m : (n / 10) % 10 = n / 10 % 10 := rfl
  have hstr : natStr n = [digitChar (n / 1000), digitChar (n / 100 % 10),
      digitChar (n / 10 % 10), digitChar (n % 10)] := by
    rw [natStr_unfold, if_neg (by omega),
      natStr_unfold, if_neg (by omega), e2,
      natStr_unfold, if_neg (by omega), e3,
      natStr_unfold, if_pos (by omega)]
    have e4 : n / 100 % 10 = n / 100 % 10 := rfl
    simp
  rw [padNat, hstr]
  rfl

theorem pad2_inj (a b : Nat) (ha : a < 100) (hb : b < 100) (h : padNat 2 a = padNat 2 b) :
    a = b := by
  rw [pad2_eq a ha, pad2_eq b hb] at h
  simp only [List.cons.injEq, and_true] at h
  obtain ⟨h1, h2⟩ := h
  have q1 := digitChar_inj _ (by omega) _ (by omega) h1
  have q2 := digitChar_inj _ (by omega) _ (by omega) h2
  omega

theorem pad4_inj (a b : Nat) (ha1 : 1000 ≤ a) (ha2 : a < 10000)
    (hb1 : 1000 ≤ b) (hb2 : b < 10000) (h : padNat 4 a = padNat 4 b) : a = b := by
  rw [pad4_eq a ha1 ha2, pad4_eq b hb1 hb2] at h
  simp only [List.cons.injEq, and_true] at h
  obtain ⟨h1, h2, h3, h4⟩ := h
  have q1 := digitChar_inj _ (by omega) _ (by omega) h1
  have q2 := digitChar_inj _ (by omega) _ (by omega) h2
  have q3 := digitChar_inj _ (by omega) _ (by omega) h3
  have q4 := digitChar_inj _ (by omega) _ (by omega) h4
  omega

theorem utcHour_lt (t : Nat) : utcHour t < 24 := by
  unfold utcHour; omega

theorem utcMin_lt (t : Nat) : utcMin t < 60 := by
  unfold utcMin; omega

theorem utcYMD_bounds (t : Nat) (ht : t < 253234080000) :
    1970 ≤ (utcYMD t).1 ∧ (utcYMD t).1 < 10000 ∧
    1 ≤ (utcYMD t).2.1 ∧ (utcYMD t).2.1 ≤ 12 ∧
    1 ≤ (utcYMD t).2.2 ∧ (utcYMD t).2.2 < 33 := by
  have hz : t / 86400 < 2930950 := by omega
  have hy := year_bounds (t / 86400) hz
  have hdoy := doy_bounds (t / 86400)
  have hmo := month_bounds (daysToYear 1970 (t / 86400)).1 (daysToYear 1970 (t / 86400)).2 hdoy
  have hdb := day_bounds (daysToYear 1970 (t / 86400)).1 1 (daysToYear 1970 (t / 86400)).2 (by omega)
  unfold utcYMD civilFromDays
  simp only
  exact ⟨hy.1, hy.2, hmo.1, hmo.2, by omega, by omega⟩

theorem strftimeDateDir_length (t : Nat) (ht : t < 253234080000) :
    (strftimeDateDir t).length = 10 := by
  obtain ⟨a1, a2, a3, a4, a5, a6⟩ := utcYMD_bounds t ht
  unfold strftimeDateDir
  rw [pad4_eq ((utcYMD t).1) (by omega) a2,
    pad2_eq ((utcYMD t).2.1) (by omega),
    pad2_eq ((utcYMD t).2.2) (by omega)]
  rfl

theorem strftimeHM_length (t : Nat) : (strftimeHM t).length = 5 := by
  have h1 := utcHour_lt t
  have h2 := utcMin_lt t
  unfold strftimeHM
  rw [pad2_eq (utcHour t) (by omega), pad2_eq (utcMin t) (by omega)]
  rfl

/-- The formatted date directory and HH:MM field of the written path determine the
timestamp to the minute: the formatting drops only seconds. -/
theorem utc_minute_inj (t1 t2 : Nat) (h1 : t1 < 253234080000) (h2 : t2 < 253234080000)
    (hd : strftimeDateDir t1 = strftimeDateDir t2) (hh : strftimeHM t1 = strftimeHM t2) :
    t1 / 60 = t2 / 60 := by
  obtain ⟨a1, a2, a3, a4, a5, a6⟩ := utcYMD_bounds t1 h1
  obtain ⟨b1, b2, b3, b4, b5, b6⟩ := utcYMD_bounds t2 h2
  unfold strftimeDateDir at hd
  rw [pad4_eq ((utcYMD t1).1) (by omega) a2, pad4_eq ((utcYMD t2).1) (by omega) b2,
    pad2_eq ((utcYMD t1).2.1) (by omega), pad2_eq ((utcYMD t2).2.1) (by omega),
    pad2_eq ((utcYMD t1).2.2) (by omega), pad2_eq ((utcYMD t2).2.2) (by omega)] at hd
  simp only [List.cons_append, List.nil_append, List.cons.injEq, and_true, true_and] at hd
  obtain ⟨y1, y2, y3, y4, m1, m2, d1, d2⟩ := hd
  have hy : (utcYMD t1).1 = (utcYMD t2).1 := by
    have q1 := digitChar_inj _ (by omega) _ (by omega) y1
    have q2 := digitChar_inj _ (by omega) _ (by omega) y2
    have q3 := digitChar_inj _ (by omega) _ (by omega) y3
    have q4 := digitChar_inj _ (by omega) _ (by omega) y4
    omega
  have hmo : (utcYMD t1).2.1 = (utcYMD t2).2.1 := by
    have q1 := digitChar_inj _ (by omega) _ (by omega) m1
    have q2 := digitChar_inj _ (by omega) _ (by omega) m2
    omega
  have hdy : (utcYMD t1).2.2 = (utcYMD t2).2.2 := by
    have q1 := digitChar_inj _ (by omega) _ (by omega) d1
    have q2 := digitChar_inj _ (by omega) _ (by omega) d2
    omega
  have hciv : civilFromDays (t1 / 86400) = civilFromDays (t2 / 86400) := by
    have hA : utcYMD t1 = utcYMD t2 := by
      rw [Prod.ext_iff, Prod.ext_iff]
      exact ⟨hy, hmo, hdy⟩
    exact hA
  have hz : t1 / 86400 = t2 / 86400 := civilFromDays_inj _ _ hciv
  have hh1 := utcHour_lt t1
  have hh2 := utcHour_lt t2
  have hm1 := utcMin_lt t1
  have hm2 := utcMin_lt t2
  unfold strftimeHM at hh
  rw [pad2_eq (utcHour t1) (by omega), pad2_eq (utcHour t2) (by omega),
    pad2_eq (utcMin t1) (by omega), pad2_eq (utcMin t2) (by omega)] at hh
  simp only [List.cons_append, List.nil_append, List.cons.injEq, and_true, true_and] at hh
  obtain ⟨p1, p2, p3, p4⟩ := hh
  have hhr : utcHour t1 = utcHour t2 := by
    have q1 := digitChar_inj _ (by omega) _ (by omega) p1
    have q2 := digitChar_inj _ (by omega) _ (by omega) p2
    omega
  have hmn : utcMin t1 = utcMin t2 := by
    have q1 := digitChar_inj _ (by omega) _ (by omega) p3
    have q2 := digitChar_inj _ (by omega) _ (by omega) p4
    omega
  unfold utcHour at hhr
  unfold utcMin at hmn
  omega

-- ===== lemmas about the embedding =====

theorem string_data_mk (l : List Char) : (String.mk l).data = l := rfl

theorem filename_data (self : WriteToGCS) (w : IntervalWindow) (s : Nat) :
    (self.filename w s).data =
      self.output_gcs_directory.data ++
        ('/' :: (strftimeDateDir w.start.toNat ++
          ('/' :: 'l' :: 'o' :: 'g' :: 's' :: '-' :: (strftimeHM w.start.toNat ++
            ('-' :: (strftimeHM w.stop.toNat ++
              ('-' :: (natStr s ++
                ('.' :: 'j' :: 's' :: 'o' :: 'n' :: extChars self.compression_method))))))))) := by
  have hsep : ("/" : String).data = ['/'] := rfl
  have hlogs : ("/logs-" : String).data = ['/', 'l', 'o', 'g', 's', '-'] := rfl
  have hdash : ("-" : String).data = ['-'] := rfl
  have hdot : ("." : String).data = ['.'] := rfl
  have hjson : ("json" : String).data = ['j', 's', 'o', 'n'] := rfl
  have hgz : (".gz" : String).data = ['.', 'g', 'z'] := rfl
  have hzlib : (".zlib" : String).data = ['.', 'z', 'l', 'i', 'b'] := rfl
  have hbz2 : (".bz2" : String).data = ['.', 'b', 'z', '2'] := rfl
  unfold WriteToGCS.filename extChars
  split
  next =>
    simp [String.data_append, dateDirStr, hmStr, natString, string_data_mk,
      hsep, hlogs, hdash, hdot, hjson, hgz]
  next =>
    split
    next =>
      simp [String.data_append, dateDirStr, hmStr, natString, string_data_mk,
        hsep, hlogs, hdash, hdot, hjson, hzlib]
    next =>
      split
      next =>
        simp [String.data_append, dateDirStr, hmStr, natString, string_data_mk,
          hsep, hlogs, hdash, hdot, hjson, hbz2]
      next =>
        simp [String.data_append, dateDirStr, hmStr, natString, string_data_mk,
          hsep, hlogs, hdash, hdot, hjson]

theorem splitLinesAux_split (b : List Char) : ∀ (acc rest : List Char), '\n' ∉ b →
    splitLinesAux (b ++ '\n' :: rest) acc =
      String.mk (acc.reverse ++ b) :: splitLinesAux rest [] := by
  induction b with
  | nil =>
    intro acc rest hb
    simp [splitLinesAux]
  | cons c b ih =>
    intro acc rest hb
    have hc : c ≠ '\n' := by
      intro hcc
      exact hb (by simp [hcc])
    have hbn : '\n' ∉ b := by
      intro hmem
      exact hb (by simp [hmem])
    rw [List.cons_append, splitLinesAux, if_neg hc, ih (c :: acc) rest hbn,
      List.reverse_cons, List.append_assoc]
    rfl

theorem splitLines_serializeBatch (batch : List String)
    (h : ∀ b ∈ batch, '\n' ∉ b.data) : splitLines (serializeBatch batch) = batch := by
  induction batch with
  | nil => rfl
  | cons b rest ih =>
    have hb : '\n' ∉ b.data := h b (by simp)
    have hnl2 : ("\n" : String).data = ['\n'] := rfl
    have hdata : (serializeBatch (b :: rest)).data =
        b.data ++ '\n' :: (serializeBatch rest).data := by
      show ((b ++ "\n") ++ serializeBatch rest).data = _
      rw [String.data_append, String.data_append, hnl2]
      simp
    unfold splitLines
    rw [hdata, splitLinesAux_split b.data [] (serializeBatch rest).data hb]
    have heta : String.mk (([] : List Char).reverse ++ b.data) = b := rfl
    have hrest := ih (fun x hx => h x (by simp [hx]))
    unfold splitLines at hrest
    rw [heta, hrest]

-- ===== window arithmetic helpers =====

theorem assign_start_eq (size t : Int) :
    (FixedWindows.assign size t).start = t - t % size := rfl

theorem assign_stop_eq (size t : Int) :
    (FixedWindows.assign size t).stop = (t - t % size) + size := rfl

theorem assign_start_range (size t : Int) (hs : 0 < size) (ht : 0 ≤ t) :
    0 ≤ (FixedWindows.assign size t).start ∧ (FixedWindows.assign size t).start ≤ t := by
  have h1 := Int.emod_nonneg t (ne_of_gt hs)
  have h2 := Int.emod_lt_of_pos t hs
  have h3 := Int.ediv_add_emod t size
  have hq : 0 ≤ t / size := Int.ediv_nonneg ht (le_of_lt hs)
  rw [assign_start_eq]
  constructor
  · have hmul : 0 ≤ size * (t / size) := mul_nonneg (le_of_lt hs) hq
    linarith
  · linarith

theorem assign_start_dvd (size t : Int) : size ∣ (FixedWindows.assign size t).start := by
  refine ⟨t / size, ?_⟩
  have h3 := Int.ediv_add_emod t size
  rw [assign_start_eq]
  linarith

theorem suffix_cons_lift (c : Char) (l t : List Char) (h : l <:+ t) : l <:+ c :: t := by
  have h2 : t <:+ [c] ++ t := List.suffix_append [c] t
  exact h.trans h2

theorem suffix_append_lift (pre l t : List Char) (h : l <:+ t) : l <:+ pre ++ t :=
  h.trans (List.suffix_append pre t)

-- ===== claim theorems (first group) =====

/-- C3 counterexample: with the gzip method, retrying the same (window, shard) batch
one wall-clock second later writes to the same path but with different object bytes —
the gzip stream embeds the write time in its MTIME header field, so the retried gzip
object is not byte-for-byte identical to the first write, refuting the claim for the
gzip method. -/
theorem c3_counterexample :
    (WriteToGCS.process ⟨"out", "gzip"⟩ ⟨gzipCompressAt (fun _ => []) 0, id, id⟩
        (0, ["a"]) ⟨0, 60⟩).path =
      (WriteToGCS.process ⟨"out", "gzip"⟩ ⟨gzipCompressAt (fun _ => []) 1, id, id⟩
        (0, ["a"]) ⟨0, 60⟩).path ∧
    (WriteToGCS.process ⟨"out", "gzip"⟩ ⟨gzipCompressAt (fun _ => []) 0, id, id⟩
        (0, ["a"]) ⟨0, 60⟩).contents ≠
      (WriteToGCS.process ⟨"out", "gzip"⟩ ⟨gzipCompressAt (fun _ => []) 1, id, id⟩
        (0, ["a"]) ⟨0, 60⟩).contents := by
  constructor
  · rfl
  · decide

/-- C3 amended: for a fixed input the output path never depends on the compression
library (hence not on the write time), and writing the same object twice leaves the
store exactly as after a single write, for every method; the object bytes are
byte-for-byte identical across two invocations for every method other than gzip, even
when the gzip library's observed state changed between them — deflate and bz2 use
deterministic single-shot compressors and uncompressed writes the records verbatim.
For gzip the bytes differ across seconds because of the MTIME header (see the
counterexample), although both encodings decompress to the same batch. -/
theorem c3_retry_determinism (dir meth : String) (gz1 gz2 df bz : String → String)
    (kv : Nat × List String) (w : IntervalWindow) (store : GcsStore) :
    (∀ libs1 libs2 : CompressionLibs,
      (WriteToGCS.process ⟨dir, meth⟩ libs1 kv w).path =
        (WriteToGCS.process ⟨dir, meth⟩ libs2 kv w).path) ∧
    (meth ≠ "gzip" →
      WriteToGCS.process ⟨dir, meth⟩ ⟨gz1, df, bz⟩ kv w =
        WriteToGCS.process ⟨dir, meth⟩ ⟨gz2, df, bz⟩ kv w) ∧
    (∀ libs : CompressionLibs,
      gcsCreateObject (gcsCreateObject store (WriteToGCS.process ⟨dir, meth⟩ libs kv w))
          (WriteToGCS.process ⟨dir, meth⟩ libs kv w) =
        gcsCreateObject store (WriteToGCS.process ⟨dir, meth⟩ libs kv w)) := by
  refine ⟨fun libs1 libs2 => rfl, ?_, ?_⟩
  · intro hmeth
    unfold WriteToGCS.process WriteToGCS.encodeBatch
    simp only [if_neg hmeth]
  · intro libs
    funext p
    unfold gcsCreateObject
    split <;> rfl

/-- C3 witness: with the bz2 method, the retried write one second later (the gzip
library state having moved on) is byte-for-byte identical to the first. -/
theorem c3_retry_determinism_witness :
    WriteToGCS.process ⟨"out", "bz2"⟩ ⟨gzipCompressAt (fun _ => []) 0, id, id⟩
        (0, ["a"]) ⟨0, 60⟩ =
      WriteToGCS.process ⟨"out", "bz2"⟩ ⟨gzipCompressAt (fun _ => []) 1, id, id⟩
        (0, ["a"]) ⟨0, 60⟩ :=
  (c3_retry_determinism "out" "bz2" (gzipCompressAt (fun _ => []) 0)
    (gzipCompressAt (fun _ => []) 1) id id (0, ["a"]) ⟨0, 60⟩ (fun _ => none)).2.1
    (by decide)

/-- C5 counterexample: the implemented stage order is not the order stated in the
specification — the pipeline windows before it decodes. -/
theorem c5_counterexample : pipelineStages ≠ specStages := by decide

/-- C5 amended: the implemented order is Window Assigner, Decoder, Shard Key Generator,
Window Aggregator, Batch Encoder, Object Writer; the swapped first two stages commute
on every element, because windowing reads only the timestamp and decoding reads only
the payload, so the composed element-level semantics equals the reference composition. -/
theorem c5_stage_order :
    pipelineStages = [Stage.windowInto, Stage.decodeMsg, Stage.addKey, Stage.groupByK,
      Stage.encodeBatch, Stage.writeObject] ∧
    ∀ (size : Int) (e : Elem),
      decodeStage (windowStage size e) = windowStage size (decodeStage e) :=
  ⟨rfl, fun _ _ => rfl⟩

/-- C6: the Batch Encoder / Object Writer dispatch sends gzip to a ".json.gz" path with
content type "application/gzip" (one gzip stream over the serialized batch), deflate to
".json.zlib" with "application/zlib", bz2 to ".json.bz2" with "application/x-bzip2",
and uncompressed to ".json" with "application/json". -/
theorem c6_dispatch (dir : String) (libs : CompressionLibs) (w : IntervalWindow)
    (s : Nat) (batch : List String) :
    ((".json.gz" : String).data <:+ (WriteToGCS.filename ⟨dir, "gzip"⟩ w s).data ∧
      mimeFor "gzip" = "application/gzip" ∧
      WriteToGCS.encodeBatch ⟨dir, "gzip"⟩ libs batch =
        libs.gzipCompress (serializeBatch batch)) ∧
    ((".json.zlib" : String).data <:+ (WriteToGCS.filename ⟨dir, "deflate"⟩ w s).data ∧
      mimeFor "deflate" = "application/zlib" ∧
      WriteToGCS.encodeBatch ⟨dir, "deflate"⟩ libs batch =
        libs.zlibCompress (serializeBatch batch)) ∧
    ((".json.bz2" : String).data <:+ (WriteToGCS.filename ⟨dir, "bz2"⟩ w s).data ∧
      mimeFor "bz2" = "application/x-bzip2" ∧
      WriteToGCS.encodeBatch ⟨dir, "bz2"⟩ libs batch =
        libs.bz2Compress (serializeBatch batch)) ∧
    ((".json" : String).data <:+ (WriteToGCS.filename ⟨dir, "uncompressed"⟩ w s).data ∧
      mimeFor "uncompressed" = "application/json" ∧
      WriteToGCS.encodeBatch ⟨dir, "uncompressed"⟩ libs batch = serializeBatch batch) := by
  refine ⟨⟨?_, rfl, rfl⟩, ⟨?_, rfl, rfl⟩, ⟨?_, rfl, rfl⟩, ⟨?_, rfl, rfl⟩⟩
  · have hfd := filename_data ⟨dir, "gzip"⟩ w s
    have hext : extChars (WriteToGCS.mk dir "gzip").compression_method = ['.', 'g', 'z'] := rfl
    rw [hext] at hfd
    have hL : (".json.gz" : String).data = ['.', 'j', 's', 'o', 'n', '.', 'g', 'z'] := rfl
    rw [hL, hfd]
    apply suffix_append_lift
    apply suffix_cons_lift
    apply suffix_append_lift
    apply suffix_cons_lift
    apply suffix_cons_lift
    apply suffix_cons_lift
    apply suffix_cons_lift
    apply suffix_cons_lift
    apply suffix_cons_lift
    apply suffix_append_lift
    apply suffix_cons_lift
    apply suffix_append_lift
    apply suffix_cons_lift
    exact List.suffix_append _ _
  · have hfd := filename_data ⟨dir, "deflate"⟩ w s
    have hext : extChars (WriteToGCS.mk dir "deflate").compression_method =
      ['.', 'z', 'l', 'i', 'b'] := rfl
    rw [hext] at hfd
    have hL : (".json.zlib" : String).data =
      ['.', 'j', 's', 'o', 'n', '.', 'z', 'l', 'i', 'b'] := rfl
    rw [hL, hfd]
    apply suffix_append_lift
    apply suffix_cons_lift
    apply suffix_append_lift
    apply suffix_cons_lift
    apply suffix_cons_lift
    apply suffix_cons_lift
    apply suffix_cons_lift
    apply suffix_cons_lift
    apply suffix_cons_lift
    apply suffix_append_lift
    apply suffix_cons_lift
    apply suffix_append_lift
    apply suffix_cons_lift
    exact List.suffix_append _ _
  · have hfd := filename_data ⟨dir, "bz2"⟩ w s
    have hext : extChars (WriteToGCS.mk dir "bz2").compression_method =
      ['.', 'b', 'z', '2'] := rfl
    rw [hext] at hfd
    have hL : (".json.bz2" : String).data = ['.', 'j', 's', 'o', 'n', '.', 'b', 'z', '2'] := rfl
    rw [hL, hfd]
    apply suffix_append_lift
    apply suffix_cons_lift
    apply suffix_append_lift
    apply suffix_cons_lift
    apply suffix_cons_lift
    apply suffix_cons_lift
    apply suffix_cons_lift
    apply suffix_cons_lift
    apply suffix_cons_lift
    apply suffix_append_lift
    apply suffix_cons_lift
    apply suffix_append_lift
    apply suffix_cons_lift
    exact List.suffix_append _ _
  · have hfd := filename_data ⟨dir, "uncompressed"⟩ w s
    have hext : extChars (WriteToGCS.mk dir "uncompressed").compression_method =
      ([] : List Char) := rfl
    rw [hext] at hfd
    have hL : (".json" : String).data = ['.', 'j', 's', 'o', 'n'] := rfl
    have happ : ('.' :: 'j' :: 's' :: 'o' :: 'n' :: ([] : List Char)) =
      ['.', 'j', 's', 'o', 'n'] := rfl
    rw [hL, hfd]
    apply suffix_append_lift
    apply suffix_cons_lift
    apply suffix_append_lift
    apply suffix_cons_lift
    apply suffix_cons_lift
    apply suffix_cons_lift
    apply suffix_cons_lift
    apply suffix_cons_lift
    apply suffix_cons_lift
    apply suffix_append_lift
    apply suffix_cons_lift
    apply suffix_append_lift
    apply suffix_cons_lift
    exact List.suffix_append _ _

/-- C7: FixedWindows assigns t to the window
[floor(t / size) * size, floor(t / size) * size + size); the window contains t, and it
is the unique size-aligned window doing so: the windows tile the timeline. -/
theorem c7_window_assignment (size t : Int) (hs : 0 < size) :
    (FixedWindows.assign size t).start = size * (t / size) ∧
    (FixedWindows.assign size t).stop = size * (t / size) + size ∧
    (FixedWindows.assign size t).start ≤ t ∧ t < (FixedWindows.assign size t).stop ∧
    ∀ k : Int, (size * k ≤ t ∧ t < size * k + size) ↔ k = t / size := by
  have h1 := Int.emod_nonneg t (ne_of_gt hs)
  have h2 := Int.emod_lt_of_pos t hs
  have h3 := Int.ediv_add_emod t size
  have hstart : (FixedWindows.assign size t).start = size * (t / size) := by
    rw [assign_start_eq]; linarith
  have hstop : (FixedWindows.assign size t).stop = size * (t / size) + size := by
    rw [assign_stop_eq]; linarith
  refine ⟨hstart, hstop, ?_, ?_, ?_⟩
  · rw [hstart]; linarith
  · rw [hstop]; linarith
  · intro k
    constructor
    · rintro ⟨hk1, hk2⟩
      have hle : k ≤ t / size := by
        rw [Int.le_ediv_iff_mul_le hs]
        linarith
      have hlt : t / size < k + 1 := by
        rw [Int.ediv_lt_iff_lt_mul hs]
        linarith
      omega
    · rintro rfl
      constructor <;> linarith

/-- C7 witness at size 60, t 125: window [60, 120) contains 125? No: [120, 180). -/
theorem c7_window_assignment_witness :
    (0 : Int) < 60 ∧
    ((FixedWindows.assign 60 125).start = 60 * (125 / 60) ∧
      (FixedWindows.assign 60 125).stop = 60 * (125 / 60) + 60 ∧
      (FixedWindows.assign 60 125).start ≤ 125 ∧ (125 : Int) < (FixedWindows.assign 60 125).stop ∧
      ∀ k : Int, (60 * k ≤ 125 ∧ (125 : Int) < 60 * k + 60) ↔ k = 125 / 60) :=
  ⟨by decide, c7_window_assignment 60 125 (by decide)⟩

/-- C8: for a positive shard count the per-record key function always succeeds, yields
a key in [0, num_shards), ignores the record content, and with num_shards = 1 every
record gets shard key 0. -/
theorem c8_shard_key (num_shards : Int) (v : Nat) (hn : 0 < num_shards) :
    (∀ element : String, ∃ k : Nat,
      GroupMessagesByFixedWindows.keyFn num_shards v element = some k ∧
      (k : Int) < num_shards ∧ (num_shards = 1 → k = 0)) ∧
    (∀ e1 e2 : String, GroupMessagesByFixedWindows.keyFn num_shards v e1 =
      GroupMessagesByFixedWindows.keyFn num_shards v e2) := by
  constructor
  · intro element
    refine ⟨v % ((num_shards - 1).toNat + 1), ?_, ?_, ?_⟩
    · unfold GroupMessagesByFixedWindows.keyFn randint0
      rw [if_neg (by omega)]
    · have hlt : v % ((num_shards - 1).toNat + 1) < (num_shards - 1).toNat + 1 :=
        Nat.mod_lt _ (by omega)
      omega
    · intro h1
      subst h1
      have he : ((1 : Int) - 1).toNat + 1 = 1 := rfl
      rw [he]
      exact Nat.mod_one v
  · intro e1 e2
    rfl

/-- C8 witness at num_shards 1, v 7. -/
theorem c8_shard_key_witness :
    (0 : Int) < 1 ∧
    ((∀ element : String, ∃ k : Nat,
        GroupMessagesByFixedWindows.keyFn 1 7 element = some k ∧
        (k : Int) < 1 ∧ ((1 : Int) = 1 → k = 0)) ∧
      (∀ e1 e2 : String, GroupMessagesByFixedWindows.keyFn 1 7 e1 =
        GroupMessagesByFixedWindows.keyFn 1 7 e2)) :=
  ⟨by decide, c8_shard_key 1 7 (by decide)⟩

/-- C10: any compression_method other than "gzip", "deflate" and "bz2" takes the else
branches: the object written is byte-for-byte the one written for "uncompressed",
with the same ".json" path and "application/json" content type, and no error. -/
theorem c10_unknown_method_fallback (dir meth : String) (libs : CompressionLibs)
    (kv : Nat × List String) (w : IntervalWindow)
    (h1 : meth ≠ "gzip") (h2 : meth ≠ "deflate") (h3 : meth ≠ "bz2") :
    WriteToGCS.process ⟨dir, meth⟩ libs kv w =
      WriteToGCS.process ⟨dir, "uncompressed"⟩ libs kv w := by
  unfold WriteToGCS.process WriteToGCS.filename mimeFor WriteToGCS.encodeBatch
  simp only
  rw [if_neg h1, if_neg h2, if_neg h3, if_neg h1, if_neg h2, if_neg h3,
    if_neg h1, if_neg h2, if_neg h3]
  rfl

/-- C10 witness at the unknown method "zstd". -/
theorem c10_unknown_method_fallback_witness :
    WriteToGCS.process ⟨"out", "zstd"⟩ idLibs (0, ["x"]) ⟨0, 60⟩ =
      WriteToGCS.process ⟨"out", "uncompressed"⟩ idLibs (0, ["x"]) ⟨0, 60⟩ :=
  c10_unknown_method_fallback "out" "zstd" idLibs (0, ["x"]) ⟨0, 60⟩
    (by decide) (by decide) (by decide)

/-- C4 counterexample: run() accepts an unknown compression method together with
num_shards = 0 without any startup error, and the very first record then fails at the
per-record shard-key generation (random.randint on an empty range) — contradicting the
claim that such configurations fail at startup before any record is processed. -/
theorem c4_counterexample :
    run "gzipp" 60 0 = Except.ok () ∧
    runPipeline "out" "gzipp" idLibs 60 0 (fun _ => 0) [("a", 5)] =
      Except.error "empty range for randrange()" := by
  constructor
  · rfl
  · rfl

/-- C4 amended: of the three configuration errors, only a non-positive window size is
caught at startup (by the FixedWindows construction inside pipeline building); run()
itself validates nothing, so an unknown compression method starts successfully (it
falls back to uncompressed output), and a non-positive num_shards starts successfully
and instead makes the per-record shard-key step the first point of failure. -/
theorem c4_startup_checks (meth : String) (wsz n : Int) (v : Nat) :
    (run meth wsz n = Except.ok () ↔ 0 < wsz) ∧
    (n ≤ 0 → randint0 (n - 1) v = none) := by
  constructor
  · by_cases hw : wsz ≤ 0
    · unfold run FixedWindowsCheck
      rw [if_pos hw]
      constructor
      · intro h
        exact absurd h (by simp)
      · intro h
        omega
    · unfold run FixedWindowsCheck
      rw [if_neg hw]
      constructor
      · intro _
        omega
      · intro _
        rfl
  · intro hn
    unfold randint0
    rw [if_pos (by omega)]

/-- C4 witness: at meth "x", window 60, shards 0, v 7, startup succeeds while the
shard-key range is empty. -/
theorem c4_startup_checks_witness :
    (run "x" 60 0 = Except.ok ()) ∧ randint0 ((0 : Int) - 1) 7 = none :=
  ⟨(c4_startup_checks "x" 60 0 7).1.mpr (by decide),
    (c4_startup_checks "x" 60 0 7).2 (by decide)⟩

/-- C2 counterexample: a record body containing a newline breaks the round trip — the
batch ["a\nb"] encodes (uncompressed) to "a\nb\n", which splits into ["a", "b"], not
the original batch. -/
theorem c2_counterexample :
    splitLines (WriteToGCS.encodeBatch ⟨"out", "uncompressed"⟩ idLibs ["a\nb"]) =
      ["a", "b"] ∧
    splitLines (WriteToGCS.encodeBatch ⟨"out", "uncompressed"⟩ idLibs ["a\nb"]) ≠
      ["a\nb"] := by
  constructor
  · rfl
  · decide

/-- C2 amended: for batches whose record bodies contain no newline character, decoding
with the matching decompressor (identity for uncompressed) and splitting on newlines
reproduces exactly the original ordered batch, for each of the four methods. -/
theorem c2_roundtrip (dir : String) (gz df bz gzD dfD bzD : String → String)
    (hgz : ∀ s, gzD (gz s) = s) (hdf : ∀ s, dfD (df s) = s) (hbz : ∀ s, bzD (bz s) = s)
    (batch : List String) (hnl : ∀ b ∈ batch, '\n' ∉ b.data) :
    splitLines (gzD (WriteToGCS.encodeBatch ⟨dir, "gzip"⟩ ⟨gz, df, bz⟩ batch)) = batch ∧
    splitLines (dfD (WriteToGCS.encodeBatch ⟨dir, "deflate"⟩ ⟨gz, df, bz⟩ batch)) = batch ∧
    splitLines (bzD (WriteToGCS.encodeBatch ⟨dir, "bz2"⟩ ⟨gz, df, bz⟩ batch)) = batch ∧
    splitLines (WriteToGCS.encodeBatch ⟨dir, "uncompressed"⟩ ⟨gz, df, bz⟩ batch) = batch := by
  have heg : WriteToGCS.encodeBatch ⟨dir, "gzip"⟩ ⟨gz, df, bz⟩ batch =
    gz (serializeBatch batch) := rfl
  have hed : WriteToGCS.encodeBatch ⟨dir, "deflate"⟩ ⟨gz, df, bz⟩ batch =
    df (serializeBatch batch) := rfl
  have heb : WriteToGCS.encodeBatch ⟨dir, "bz2"⟩ ⟨gz, df, bz⟩ batch =
    bz (serializeBatch batch) := rfl
  have heu : WriteToGCS.encodeBatch ⟨dir, "uncompressed"⟩ ⟨gz, df, bz⟩ batch =
    serializeBatch batch := rfl
  rw [heg, hed, heb, heu, hgz, hdf, hbz]
  have hsp := splitLines_serializeBatch batch hnl
  exact ⟨hsp, hsp, hsp, hsp⟩

/-- C2 witness: identity compressors, batch ["a", "b"]. -/
theorem c2_roundtrip_witness :
    splitLines (id (WriteToGCS.encodeBatch ⟨"out", "gzip"⟩ ⟨id, id, id⟩ ["a", "b"])) =
      ["a", "b"] ∧
    splitLines (id (WriteToGCS.encodeBatch ⟨"out", "deflate"⟩ ⟨id, id, id⟩ ["a", "b"])) =
      ["a", "b"] ∧
    splitLines (id (WriteToGCS.encodeBatch ⟨"out", "bz2"⟩ ⟨id, id, id⟩ ["a", "b"])) =
      ["a", "b"] ∧
    splitLines (WriteToGCS.encodeBatch ⟨"out", "uncompressed"⟩ ⟨id, id, id⟩ ["a", "b"]) =
      ["a", "b"] :=
  c2_roundtrip "out" id id id id id id (fun _ => rfl) (fun _ => rfl) (fun _ => rfl)
    ["a", "b"] (by decide)

/-- C9: with a 60-second window, one shard and uncompressed output, three messages
"a", "b", "c" whose event times fall into one window produce exactly one object, at
the path built from that window's UTC start date, start and end HH:MM and shard 0 with
the ".json" suffix, whose contents are exactly "a\nb\nc\n" in arrival order. -/
theorem c9_concrete_scenario (dir : String) (libs : CompressionLibs) (t1 t2 t3 : Int)
    (r : Nat → Nat)
    (h2 : FixedWindows.assign 60 t2 = FixedWindows.assign 60 t1)
    (h3 : FixedWindows.assign 60 t3 = FixedWindows.assign 60 t1) :
    runPipeline dir "uncompressed" libs 60 1 r [("a", t1), ("b", t2), ("c", t3)] =
      Except.ok [⟨WriteToGCS.filename ⟨dir, "uncompressed"⟩ (FixedWindows.assign 60 t1) 0,
        "application/json", "a\nb\nc\n"⟩] := by
  have hkey : ∀ (v : Nat) (e : String), GroupMessagesByFixedWindows.keyFn 1 v e = some 0 := by
    intro v e
    unfold GroupMessagesByFixedWindows.keyFn randint0
    rw [if_neg (by decide)]
    have he : ((1 : Int) - 1).toNat + 1 = 1 := rfl
    rw [he, Nat.mod_one]
  unfold runPipeline GroupMessagesByFixedWindows.expand
  simp only [List.map_cons, List.map_nil, h2, h3]
  simp only [assignShardKeys, hkey]
  simp only [groupByKey, List.foldl, addToGroup, eq_self_iff_true, if_true, if_pos]
  simp only [List.map_cons, List.map_nil]
  rfl

/-- C9 witness: timestamps 0, 1, 2 in the window [0, 60) give the single object
out/1970/01/01/logs-00:00-00:01-0.json containing "a\nb\nc\n". -/
theorem c9_concrete_scenario_witness :
    FixedWindows.assign 60 1 = FixedWindows.assign 60 0 ∧
    FixedWindows.assign 60 2 = FixedWindows.assign 60 0 ∧
    runPipeline "out" "uncompressed" idLibs 60 1 (fun _ => 0)
        [("a", 0), ("b", 1), ("c", 2)] =
      Except.ok [⟨"out/1970/01/01/logs-00:00-00:01-0.json", "application/json",
        "a\nb\nc\n"⟩] := by
  refine ⟨by decide, by decide, ?_⟩
  rw [c9_concrete_scenario "out" idLibs 0 1 2 (fun _ => 0) (by decide) (by decide)]
  rfl

/-- C1 counterexample: with window_size_sec = 10, the two distinct windows [0, 10) and
[10, 20) produced by FixedWindows for timestamps 0 and 10 map, for the same shard, to
the same output path — the HH:MM formatting drops seconds, so sub-minute windows
collide. -/
theorem c1_counterexample :
    FixedWindows.assign 10 0 = ⟨0, 10⟩ ∧ FixedWindows.assign 10 10 = ⟨10, 20⟩ ∧
    (⟨0, 10⟩ : IntervalWindow) ≠ ⟨10, 20⟩ ∧
    WriteToGCS.filename ⟨"out", "gzip"⟩ ⟨0, 10⟩ 0 =
      WriteToGCS.filename ⟨"out", "gzip"⟩ ⟨10, 20⟩ 0 := by
  refine ⟨by decide, by decide, by decide, ?_⟩
  rfl

/-- C1 amended: provided the window size is at least 60 seconds (the resolution of the
HH:MM path format) and window starts lie in the date range representable by the
datetime library, distinct (window, shard) pairs arising in one run (same directory,
compression method, window size) yield distinct output paths. -/
theorem c1_path_uniqueness (dir meth : String) (size t1 t2 : Int) (s1 s2 : Nat)
    (hsize : 60 ≤ size)
    (ht1 : 0 ≤ t1) (ht2 : 0 ≤ t2)
    (hb1 : t1 < 253234080000) (hb2 : t2 < 253234080000)
    (hne : (FixedWindows.assign size t1, s1) ≠ (FixedWindows.assign size t2, s2)) :
    WriteToGCS.filename ⟨dir, meth⟩ (FixedWindows.assign size t1) s1 ≠
      WriteToGCS.filename ⟨dir, meth⟩ (FixedWindows.assign size t2) s2 := by
  intro heq
  have hr1 := assign_start_range size t1 (by omega) ht1
  have hr2 := assign_start_range size t2 (by omega) ht2
  have hs1n : (FixedWindows.assign size t1).start.toNat < 253234080000 := by omega
  have hs2n : (FixedWindows.assign size t2).start.toNat < 253234080000 := by omega
  have hdata := congrArg String.data heq
  rw [filename_data, filename_data] at hdata
  have h1 := List.append_cancel_left hdata
  simp only [List.cons.injEq, eq_self_iff_true, true_and] at h1
  obtain ⟨hdate, h1⟩ := List.append_inj h1
    (by rw [strftimeDateDir_length _ hs1n, strftimeDateDir_length _ hs2n])
  simp only [List.cons.injEq, eq_self_iff_true, true_and] at h1
  obtain ⟨hhm, h1⟩ := List.append_inj h1 (by rw [strftimeHM_length, strftimeHM_length])
  simp only [List.cons.injEq, eq_self_iff_true, true_and] at h1
  obtain ⟨hhm2, h1⟩ := List.append_inj h1 (by rw [strftimeHM_length, strftimeHM_length])
  simp only [List.cons.injEq, eq_self_iff_true, true_and] at h1
  have hlen := congrArg List.length h1
  simp only [List.length_append] at hlen
  obtain ⟨hshard, -⟩ := List.append_inj h1 (by omega)
  have hs12 : s1 = s2 := natStr_inj s1 s2 hshard
  have hmin := utc_minute_inj (FixedWindows.assign size t1).start.toNat
    (FixedWindows.assign size t2).start.toNat hs1n hs2n hdate hhm
  by_cases hstart : (FixedWindows.assign size t1).start = (FixedWindows.assign size t2).start
  · apply hne
    have e1 : FixedWindows.assign size t1 =
      ⟨(FixedWindows.assign size t1).start, (FixedWindows.assign size t1).start + size⟩ := rfl
    have e2 : FixedWindows.assign size t2 =
      ⟨(FixedWindows.assign size t2).start, (FixedWindows.assign size t2).start + size⟩ := rfl
    rw [e1, e2, hstart, hs12]
  · exfalso
    have hd1 := assign_start_dvd size t1
    have hd2 := assign_start_dvd size t2
    have hdvd : size ∣ ((FixedWindows.assign size t1).start -
      (FixedWindows.assign size t2).start) := dvd_sub hd1 hd2
    have hne0 : (FixedWindows.assign size t1).start -
      (FixedWindows.assign size t2).start ≠ 0 := sub_ne_zero.mpr hstart
    have hnatabs : size.natAbs ∣ ((FixedWindows.assign size t1).start -
      (FixedWindows.assign size t2).start).natAbs := Int.natAbs_dvd_natAbs.mpr hdvd
    have hpos : 0 < ((FixedWindows.assign size t1).start -
      (FixedWindows.assign size t2).start).natAbs := Int.natAbs_pos.mpr hne0
    have hge := Nat.le_of_dvd hpos hnatabs
    omega

/-- C1 witness: size 60, distinct windows [0, 60) and [60, 120), shard 0 — the theorem
applies and the two paths differ. -/
theorem c1_path_uniqueness_witness :
    (FixedWindows.assign 60 0, (0 : Nat)) ≠ (FixedWindows.assign 60 60, 0) ∧
    WriteToGCS.filename ⟨"out", "gzip"⟩ (FixedWindows.assign 60 0) 0 ≠
      WriteToGCS.filename ⟨"out", "gzip"⟩ (FixedWindows.assign 60 60) 0 :=
  ⟨by decide, c1_path_uniqueness "out" "gzip" 60 0 60 0 0 (by decide) (by decide)
    (by decide) (by decide) (by decide) (by decide)⟩
